import Mathlib

/-!
Verification of the Fleetalytics JSON structure sniffer
(`src/scripts/json_preview_script.py`) against its specification.

The script is embedded shallowly: a file is modelled as a `PyFile` record
giving, for each of the four `open`/read sites in the script, either the
byte content the read returns or the error it raises (the sites open the
file independently, so each may fail or succeed on its own).  Python text
reads (`open(..., 'r', encoding='utf-8', errors='ignore')` followed by
`f.read(n)`) are modelled as UTF-8 decoding that silently skips maximal
invalid subparts, followed by universal-newline translation, followed by
taking the first `n` characters.  Exceptions are modelled with
`Except String`; a `try/except` block is a `match` on the `Except` value.
-/

namespace Fleetalytics

/-- The dict returned by `preview_large_json`:
keys `preview`, `structure` and `file_size`. -/
structure ProbeResult where
  preview : String
  structure_info : String
  file_size : Nat
deriving Repr, DecidableEq

/-- Model of one file as seen by the script.  Each field corresponds to one
`open`-and-read site in the source: `size` is `os.path.getsize`,
`previewRead` the read in `preview_large_json`, and `tier1Read`,
`tier2Read`, `tier3Read` the three reads in `analyze_json_structure`.
An `Except.error` value means that site raised. -/
structure PyFile where
  size : Except String Nat
  previewRead : Except String (List Nat)
  tier1Read : Except String (List Nat)
  tier2Read : Except String (List Nat)
  tier3Read : Except String (List Nat)

/-- Is `b` a UTF-8 continuation byte (`0x80`–`0xBF`)? -/
def isContByte (b : Nat) : Bool := 0x80 ≤ b && b ≤ 0xBF

/-- Lower bound of the first continuation byte for lead byte `b`
(UTF-8 forbids overlong forms: `E0` requires `A0`–, `F0` requires `90`–). -/
def cont1Lo (b : Nat) : Nat := if b = 0xE0 then 0xA0 else if b = 0xF0 then 0x90 else 0x80

/-- Upper bound of the first continuation byte for lead byte `b`
(UTF-8 forbids surrogates and code points above `U+10FFFF`:
`ED` allows –`9F`, `F4` allows –`8F`). -/
def cont1Hi (b : Nat) : Nat := if b = 0xED then 0x9F else if b = 0xF4 then 0x8F else 0xBF

/-- Is `c` acceptable as the first continuation byte after lead `b`? -/
def cont1Ok (b c : Nat) : Bool := cont1Lo b ≤ c && c ≤ cont1Hi b

/-- UTF-8 decoding with `errors='ignore'`: invalid data is skipped, one
maximal valid subpart at a time (the behaviour of CPython's UTF-8 decoder
with the `ignore` error handler).  A truncated but so-far-valid sequence at
end of input is likewise dropped.  Fuelled by the input length: every
recursive call consumes at least one byte, so the fuel never runs out. -/
def utf8IgnoreAux : Nat → List Nat → List Char
  | 0, _ => []
  | _, [] => []
  | fuel + 1, b :: rest =>
    if b < 0x80 then Char.ofNat b :: utf8IgnoreAux fuel rest
    else if b < 0xC2 then utf8IgnoreAux fuel rest
    else if b ≤ 0xDF then
      match rest with
      | [] => []
      | c :: r1 =>
        if isContByte c then
          Char.ofNat ((b - 0xC0) * 0x40 + (c - 0x80)) :: utf8IgnoreAux fuel r1
        else utf8IgnoreAux fuel rest
    else if b ≤ 0xEF then
      match rest with
      | [] => []
      | c :: r1 =>
        if cont1Ok b c then
          match r1 with
          | [] => []
          | d :: r2 =>
            if isContByte d then
              Char.ofNat (((b - 0xE0) * 0x40 + (c - 0x80)) * 0x40 + (d - 0x80)) ::
                utf8IgnoreAux fuel r2
            else utf8IgnoreAux fuel r1
        else utf8IgnoreAux fuel rest
    else if b ≤ 0xF4 then
      match rest with
      | [] => []
      | c :: r1 =>
        if cont1Ok b c then
          match r1 with
          | [] => []
          | d :: r2 =>
            if isContByte d then
              match r2 with
              | [] => []
              | e2 :: r3 =>
                if isContByte e2 then
                  Char.ofNat
                      ((((b - 0xF0) * 0x40 + (c - 0x80)) * 0x40 + (d - 0x80)) * 0x40
                        + (e2 - 0x80)) :: utf8IgnoreAux fuel r3
                else utf8IgnoreAux fuel r2
            else utf8IgnoreAux fuel r1
        else utf8IgnoreAux fuel rest
    else utf8IgnoreAux fuel rest

/-- UTF-8 decoding with `errors='ignore'`. -/
def utf8Ignore (bytes : List Nat) : List Char :=
  utf8IgnoreAux bytes.length bytes

/-- Universal-newline translation performed by Python text mode:
`\r\n` and lone `\r` both become `\n`. -/
def newlineTranslate : List Char → List Char
  | [] => []
  | '\r' :: '\n' :: rest => '\n' :: newlineTranslate rest
  | '\r' :: rest => '\n' :: newlineTranslate rest
  | c :: rest => c :: newlineTranslate rest

/-- Python `open(path, 'r', encoding='utf-8', errors='ignore')` followed by
`f.read(n)` on a file whose raw content is `bytes`: decode skipping invalid
subparts, translate newlines, return the first `n` characters. -/
def readText (bytes : List Nat) (n : Nat) : List Char :=
  (newlineTranslate (utf8Ignore bytes)).take n

/-- UTF-8 bytes of an ASCII-only string (used to build concrete test files;
for ASCII text the code units and the bytes coincide). -/
def strBytes (s : String) : List Nat := s.data.map Char.toNat

/-- Does the list start with the given pattern? -/
def listStarts : List Char → List Char → Bool
  | [], _ => true
  | _ :: _, [] => false
  | p :: ps, c :: cs => p = c && listStarts ps cs

/-- Python `str.replace(tgt, repl)`: replace every non-overlapping
occurrence, scanning left to right.  Fuelled by the input length (each step
consumes at least one character, so the fuel never runs out). -/
def pyReplaceAux (tgt repl : List Char) : Nat → List Char → List Char
  | 0, s => s
  | _, [] => []
  | fuel + 1, c :: rest =>
    if tgt ≠ [] ∧ listStarts tgt (c :: rest) then
      repl ++ pyReplaceAux tgt repl fuel ((c :: rest).drop tgt.length)
    else
      c :: pyReplaceAux tgt repl fuel rest

/-- Python `s.replace(tgt, repl)`. -/
def pyReplace (s tgt repl : List Char) : List Char :=
  pyReplaceAux tgt repl s.length s

/-- The characters of the literal token `NaN`. -/
def nanChars : List Char := ['N', 'a', 'N']

/-- The characters of the literal token `null`. -/
def nullChars : List Char := ['n', 'u', 'l', 'l']

/-- Python `\s` (ASCII range) and `str.strip` whitespace. -/
def isPySpace (c : Char) : Bool :=
  c = ' ' || c = '\t' || c = '\n' || c = '\r' || c = '\x0b' || c = '\x0c'

/-- Model of `re.findall(r'"([^\x22]+)"(?=\s*:)', s)`: scan left to right; at a
double quote, the only candidate match takes all following non-quote
characters (at least one) up to the next quote, and succeeds when the
lookahead (optional whitespace then a colon) holds after the closing quote.
On success scanning resumes after the closing quote (the lookahead is not
consumed); on failure it resumes one character later.  Fuelled by the input
length. -/
def findKeysAux : Nat → List Char → List String
  | 0, _ => []
  | _, [] => []
  | fuel + 1, c :: rest =>
    if c = '"' then
      match rest.dropWhile (fun x => x ≠ '"') with
      | '"' :: after =>
        if rest.takeWhile (fun x => x ≠ '"') ≠ [] ∧
            (after.dropWhile isPySpace).head? = some ':' then
          String.mk (rest.takeWhile (fun x => x ≠ '"')) :: findKeysAux fuel after
        else findKeysAux fuel rest
      | _ => findKeysAux fuel rest
    else findKeysAux fuel rest

/-- Model of `re.findall(r'"([^\x22]+)"(?=\s*:)', s)`. -/
def findKeys (s : List Char) : List String :=
  findKeysAux s.length s

/-- One iteration of the `unique_keys` loop: append `key` when it is not
yet present and the cap has not been reached. -/
def uniqueKeysStep (max_items : Nat) (acc : List String) (key : String) : List String :=
  if key ∉ acc ∧ acc.length < max_items then acc ++ [key] else acc

/-- The `unique_keys` accumulation loop of the fast-path tier. -/
def uniqueKeys (keys : List String) (max_items : Nat) : List String :=
  keys.foldl (uniqueKeysStep max_items) []

/-- Model of `', '.join(keys)`. -/
def joinKeys (keys : List String) : String := String.intercalate ", " keys

/-- The body of tier 1 after the read and the `NaN` → `null` replacement:
classify by the first non-whitespace character and, for an object, extract
candidate keys from the first 1000 characters of the cleaned text. -/
def tier1Describe (clean_content : List Char) (max_items : Nat) : String :=
  if (clean_content.dropWhile isPySpace).head? = some '{' then
    if findKeys (clean_content.take 1000) ≠ [] then
      "JSON object with keys including: " ++
        joinKeys (uniqueKeys (findKeys (clean_content.take 1000)) max_items)
    else
      "JSON object (dictionary)"
  else if (clean_content.dropWhile isPySpace).head? = some '[' then
    "JSON array (list)"
  else
    "Unknown JSON structure"

/-- Tier 1 of `analyze_json_structure`: read the first 1024 characters,
replace `NaN` with `null`, then describe.  Raises only if the read
raises. -/
def tier1 (fm : PyFile) (max_items : Nat) : Except String String := do
  let bytes ← fm.tier1Read
  pure (tier1Describe (pyReplace (readText bytes 1024) nanChars nullChars) max_items)

/-- JSON values as produced by `json.loads` (numbers kept as their raw
token text; only the top-level keys are ever consumed by the script). -/
inductive JVal where
  | jnull
  | jbool (b : Bool)
  | jnum (raw : String)
  | jstr (s : String)
  | jarr (xs : List JVal)
  | jobj (kvs : List (String × JVal))
deriving Repr

/-- Skip the JSON whitespace characters the CPython scanner skips. -/
def jsonWs (s : List Char) : List Char :=
  s.dropWhile (fun c => c = ' ' || c = '\t' || c = '\n' || c = '\r')

/-- Value of a hexadecimal digit. -/
def hexVal (c : Char) : Option Nat :=
  if '0' ≤ c ∧ c ≤ '9' then some (c.toNat - '0'.toNat)
  else if 'a' ≤ c ∧ c ≤ 'f' then some (c.toNat - 'a'.toNat + 10)
  else if 'A' ≤ c ∧ c ≤ 'F' then some (c.toNat - 'A'.toNat + 10)
  else none

/-- Parse exactly four hexadecimal digits (the payload of a `\u` escape). -/
def parseUHex : List Char → Option (Nat × List Char)
  | a :: b :: c :: d :: rest =>
    match hexVal a, hexVal b, hexVal c, hexVal d with
    | some x, some y, some z, some w => some (((x * 16 + y) * 16 + z) * 16 + w, rest)
    | _, _, _, _ => none
  | _ => none

/-- Single-character JSON string escapes. -/
def escChar (c : Char) : Option Char :=
  if c = '"' then some '"'
  else if c = '\\' then some '\\'
  else if c = '/' then some '/'
  else if c = 'b' then some '\x08'
  else if c = 'f' then some '\x0c'
  else if c = 'n' then some '\n'
  else if c = 'r' then some '\r'
  else if c = 't' then some '\t'
  else none

/-- Body of a JSON string (after the opening quote), in the default strict
mode of `json.loads`: unescaped control characters below `0x20` are
rejected; `\uXXXX` escapes are decoded, combining high/low surrogate
pairs.  Returns the string value and the input after the closing quote. -/
def parseJStringAux : Nat → List Char → List Char → Option (String × List Char)
  | 0, _, _ => none
  | _, [], _ => none
  | fuel + 1, c :: rest, acc =>
    if c = '"' then some (String.mk acc.reverse, rest)
    else if c = '\\' then
      match rest with
      | [] => none
      | e2 :: rest2 =>
        if e2 = 'u' then
          match parseUHex rest2 with
          | none => none
          | some (n, rest3) =>
            if 0xD800 ≤ n ∧ n ≤ 0xDBFF then
              match rest3 with
              | '\\' :: 'u' :: rest4 =>
                match parseUHex rest4 with
                | some (m, rest5) =>
                  if 0xDC00 ≤ m ∧ m ≤ 0xDFFF then
                    parseJStringAux fuel rest5
                      (Char.ofNat (0x10000 + (n - 0xD800) * 0x400 + (m - 0xDC00)) :: acc)
                  else parseJStringAux fuel rest3 (Char.ofNat n :: acc)
                | none => parseJStringAux fuel rest3 (Char.ofNat n :: acc)
              | _ => parseJStringAux fuel rest3 (Char.ofNat n :: acc)
            else parseJStringAux fuel rest3 (Char.ofNat n :: acc)
        else
          match escChar e2 with
          | some ec => parseJStringAux fuel rest2 (ec :: acc)
          | none => none
    else if c.toNat < 0x20 then none
    else parseJStringAux fuel rest (c :: acc)

/-- Is `c` an ASCII digit? -/
def isDigitChar (c : Char) : Bool := '0' ≤ c && c ≤ '9'

/-- The number token recognizer of the CPython scanner, the regular
expression `(-?(?:0|[1-9]\d*))(\.\d+)?([eE][-+]?\d+)?` anchored at the
current position: an optional sign and integer part, then an optional
fraction (a dot followed by at least one digit), then an optional exponent.
An optional part whose tail cannot complete is simply not taken.  Returns
the raw matched text. -/
def parseJNum (s : List Char) : Option (String × List Char) :=
  let (sign, s1) : List Char × List Char := match s with
    | '-' :: t => (['-'], t)
    | _ => ([], s)
  let intPart : Option (List Char × List Char) :=
    match s1 with
    | [] => none
    | c :: rest =>
      if c = '0' then some (sign ++ ['0'], rest)
      else if isDigitChar c then
        some (sign ++ c :: rest.takeWhile isDigitChar, rest.dropWhile isDigitChar)
      else none
  intPart.map (fun (ip, r1) =>
    let (fp, r2) : List Char × List Char := match r1 with
      | '.' :: t =>
        if (t.takeWhile isDigitChar) ≠ [] then
          ('.' :: t.takeWhile isDigitChar, t.dropWhile isDigitChar)
        else ([], r1)
      | _ => ([], r1)
    let (ep, r3) : List Char × List Char := match r2 with
      | e2 :: t =>
        if e2 = 'e' ∨ e2 = 'E' then
          match t with
          | sc :: t2 =>
            if sc = '+' ∨ sc = '-' then
              if (t2.takeWhile isDigitChar) ≠ [] then
                (e2 :: sc :: t2.takeWhile isDigitChar, t2.dropWhile isDigitChar)
              else ([], r2)
            else if (t.takeWhile isDigitChar) ≠ [] then
              (e2 :: t.takeWhile isDigitChar, t.dropWhile isDigitChar)
            else ([], r2)
          | [] => ([], r2)
        else ([], r2)
      | [] => ([], r2)
    (String.mk (ip ++ fp ++ ep), r3))

mutual

/-- One value, dispatched on the current character exactly as the CPython
scanner's `scan_once` (which does not itself skip leading whitespace). -/
def parseJVal : Nat → List Char → Option (JVal × List Char)
  | 0, _ => none
  | fuel + 1, s =>
    match s with
    | [] => none
    | c :: rest =>
      if c = '"' then
        match parseJStringAux rest.length rest [] with
        | some (str, r) => some (JVal.jstr str, r)
        | none => none
      else if c = '{' then parseJObj fuel rest
      else if c = '[' then parseJArr fuel rest
      else if listStarts "null".data s then some (JVal.jnull, s.drop 4)
      else if listStarts "true".data s then some (JVal.jbool true, s.drop 4)
      else if listStarts "false".data s then some (JVal.jbool false, s.drop 5)
      else if listStarts "NaN".data s then some (JVal.jnum "NaN", s.drop 3)
      else if listStarts "Infinity".data s then some (JVal.jnum "Infinity", s.drop 8)
      else if listStarts "-Infinity".data s then some (JVal.jnum "-Infinity", s.drop 9)
      else
        match parseJNum s with
        | some (raw, r) => some (JVal.jnum raw, r)
        | none => none

/-- Object body, after the opening brace: whitespace, then either a closing
brace (empty object) or the first `"key": value` pair. -/
def parseJObj : Nat → List Char → Option (JVal × List Char)
  | 0, _ => none
  | fuel + 1, s =>
    match jsonWs s with
    | '}' :: r => some (JVal.jobj [], r)
    | t => parseJObjItems fuel t []

/-- The member loop of an object: a quoted key, a colon, a value, then a
comma (continue) or a closing brace (finish). -/
def parseJObjItems : Nat → List Char → List (String × JVal) →
    Option (JVal × List Char)
  | 0, _, _ => none
  | fuel + 1, s, acc =>
    match s with
    | '"' :: r =>
      match parseJStringAux r.length r [] with
      | none => none
      | some (key, r2) =>
        match jsonWs r2 with
        | ':' :: r4 =>
          match parseJVal fuel (jsonWs r4) with
          | none => none
          | some (v, r5) =>
            match jsonWs r5 with
            | ',' :: r7 => parseJObjItems fuel (jsonWs r7) (acc ++ [(key, v)])
            | '}' :: r7 => some (JVal.jobj (acc ++ [(key, v)]), r7)
            | _ => none
        | _ => none
    | _ => none

/-- Array body, after the opening bracket. -/
def parseJArr : Nat → List Char → Option (JVal × List Char)
  | 0, _ => none
  | fuel + 1, s =>
    match jsonWs s with
    | ']' :: r => some (JVal.jarr [], r)
    | t => parseJArrItems fuel t []

/-- The element loop of an array. -/
def parseJArrItems : Nat → List Char → List JVal → Option (JVal × List Char)
  | 0, _, _ => none
  | fuel + 1, s, acc =>
    match parseJVal fuel s with
    | none => none
    | some (v, r) =>
      match jsonWs r with
      | ',' :: r2 => parseJArrItems fuel (jsonWs r2) (acc ++ [v])
      | ']' :: r2 => some (JVal.jarr (acc ++ [v]), r2)
      | _ => none

end

/-- Model of `json.loads`: skip leading whitespace, parse one value, require only
whitespace after it; `none` models a raised `JSONDecodeError`.  The fuel
bounds the number of parser-function entries; each contiguous chain of
entries consumes input, so four fuel units per character plus a constant
is ample. -/
def jsonLoads (s : List Char) : Option JVal :=
  match parseJVal (4 * s.length + 8) (jsonWs s) with
  | none => none
  | some (v, rest) => if jsonWs rest = [] then some v else none

/-- First-seen-order deduplication (the insertion behaviour of a Python
dict built by the JSON object decoder: a repeated key keeps its first
position). -/
def firstSeenDedupAux (acc : List String) : List String → List String
  | [] => acc
  | k :: ks =>
    if k ∈ acc then firstSeenDedupAux acc ks
    else firstSeenDedupAux (acc ++ [k]) ks

/-- First-seen-order deduplication of a key list. -/
def firstSeenDedup (ks : List String) : List String := firstSeenDedupAux [] ks

/-- Model of `list(d.keys())` for the dict decoded from an object's member list:
first-seen order, duplicates collapsed. -/
def dictKeys (kvs : List (String × JVal)) : List String :=
  firstSeenDedup (kvs.map Prod.fst)

/-- The brace-depth scan of tier 2: `bracket_count` starts at zero, is
incremented at `{` and decremented at `}`; the first position where a
decrement lands on zero yields `end_pos = i + 1`.  Returns `0` when the
count never returns to zero (the initial value of `end_pos`). -/
def bracketEndAux : List Char → Nat → Int → Nat
  | [], _, _ => 0
  | c :: rest, i, bc =>
    if c = '{' then bracketEndAux rest (i + 1) (bc + 1)
    else if c = '}' then
      if bc - 1 = 0 then i + 1 else bracketEndAux rest (i + 1) (bc - 1)
    else bracketEndAux rest (i + 1) bc

/-- The brace-depth scan of tier 2 over the cleaned text. -/
def bracketEnd (s : List Char) : Nat := bracketEndAux s 0 0

/-- The `clean_content` of tier 2: the first 10240 characters read, with
`NaN` replaced by `null`. -/
def tier2CleanContent (bytes : List Nat) : List Char :=
  pyReplace (readText bytes 10240) nanChars nullChars

/-- Tier 2 of `analyze_json_structure`: read the first 10240 characters,
replace `NaN` with `null`; if the cleaned text starts with `{`, find the
end of the first balanced top-level object and parse that substring with
`json.loads`.  A parse failure raises (`JSONDecodeError` propagates out of
this tier); only the no-balanced-object and not-an-object paths return the
"details could not be parsed" description. -/
def tier2 (fm : PyFile) (max_items : Nat) : Except String String := do
  let bytes ← fm.tier2Read
  let clean_content := tier2CleanContent bytes
  if (clean_content.dropWhile isPySpace).head? = some '{' then
    if 0 < bracketEnd clean_content then
      match jsonLoads (clean_content.take (bracketEnd clean_content)) with
      | none => Except.error "JSONDecodeError"
      | some (JVal.jobj kvs) =>
        pure ("JSON object with keys including: " ++
          joinKeys ((dictKeys kvs).take max_items))
      | some _ => Except.error "AttributeError"
    else
      pure "JSON structure detected, but details could not be parsed"
  else
    pure "JSON structure detected, but details could not be parsed"

/-- Tier 3 of `analyze_json_structure`: read a single raw byte, decode it
tolerantly, and classify by that character.  Raises only if the read
raises. -/
def tier3 (fm : PyFile) : Except String String := do
  let bytes ← fm.tier3Read
  let first_char := utf8Ignore (bytes.take 1)
  if first_char = ['{'] then pure "JSON object (dictionary) with NaN values"
  else if first_char = ['['] then pure "JSON array (list) with NaN values"
  else pure "Unknown JSON structure with possible NaN values"

/-- Model of `analyze_json_structure`: tier 1, falling back on its exception to
tier 2, falling back on its exception to tier 3, whose bare `except`
returns a message embedding the original tier-1 error.  Total: no
exception escapes. -/
def analyze_json_structure (fm : PyFile) (max_items : Nat) : String :=
  match tier1 fm max_items with
  | Except.ok s => s
  | Except.error e =>
    match tier2 fm max_items with
    | Except.ok s => s
    | Except.error _ =>
      match tier3 fm with
      | Except.ok s => s
      | Except.error _ => "Could not analyze structure: " ++ e

/-- The `except` handler of `preview_large_json`. -/
def errorProbe (e : String) : ProbeResult :=
  { preview := "Error reading file: " ++ e, structure_info := "Error", file_size := 0 }

/-- The `try` block of `preview_large_json`: file size, then the preview
read, then the structure analysis. -/
def preview_body (fm : PyFile) (max_bytes : Nat) : Except String ProbeResult := do
  let file_size ← fm.size
  let pbytes ← fm.previewRead
  pure { preview := String.mk (readText pbytes max_bytes),
         structure_info := analyze_json_structure fm 5,
         file_size := file_size }

/-- Model of `preview_large_json`: the `try` block with every exception converted
into the error record by the `except` handler. -/
def preview_large_json (fm : PyFile) (max_bytes : Nat) : ProbeResult :=
  match preview_body fm max_bytes with
  | Except.ok r => r
  | Except.error e => errorProbe e

/-- Model of `preview_large_json` viewed at the exception level: the result of the
`try`/`except` as an `Except` value, so that "never raises" is the
statement that this is always `Except.ok`. -/
def preview_large_json_exc (fm : PyFile) (max_bytes : Nat) :
    Except String ProbeResult :=
  match preview_body fm max_bytes with
  | Except.ok r => Except.ok r
  | Except.error e => Except.ok (errorProbe e)

/-- Round to the nearest integer, ties to even — the rounding applied by
Python's `format(v, '.2f')` to the exact value of `v`. -/
def roundHalfEven (q : ℚ) : ℤ :=
  if q - ⌊q⌋ < 1 / 2 then ⌊q⌋
  else if 1 / 2 < q - ⌊q⌋ then ⌊q⌋ + 1
  else if 2 ∣ ⌊q⌋ then ⌊q⌋ else ⌊q⌋ + 1

/-- Two decimal digits (for a value below 100). -/
def pad2 (k : ℕ) : String := String.mk [Nat.digitChar (k / 10 % 10), Nat.digitChar (k % 10)]

/-- The f-string `f"{v:.2f}"` on the exact value of `v`: round `v * 100` to
an integer, ties to even, and print it with two digits after the point. -/
def fmt2 (q : ℚ) : String :=
  if roundHalfEven (q * 100) < 0 then
    "-" ++ toString ((-roundHalfEven (q * 100)).toNat / 100) ++ "." ++
      pad2 ((-roundHalfEven (q * 100)).toNat % 100)
  else
    toString ((roundHalfEven (q * 100)).toNat / 100) ++ "." ++
      pad2 ((roundHalfEven (q * 100)).toNat % 100)

/-- Model of `format_file_size`, the unit loop unrolled (the loop body returns at
the first unit whose scaled value is below 1024, and at `GB`
unconditionally).  The Python value is a float after the first division;
dividing by 1024 only shifts the binary exponent, so for sizes below
`2 ^ 53` every intermediate float is the exact rational modelled here. -/
def format_file_size (size_in_bytes : ℚ) : String :=
  if size_in_bytes < 1024 then fmt2 size_in_bytes ++ " B"
  else if size_in_bytes / 1024 < 1024 then fmt2 (size_in_bytes / 1024) ++ " KB"
  else if size_in_bytes / 1024 / 1024 < 1024 then
    fmt2 (size_in_bytes / 1024 / 1024) ++ " MB"
  else fmt2 (size_in_bytes / 1024 / 1024 / 1024) ++ " GB"

/-- The units of `format_file_size`, in loop order. -/
def sizeUnits : List String := ["B", "KB", "MB", "GB"]

/-- The unit index the specification prescribes: the first unit under which
the scaled value is below 1024, with `GB` (index 3) terminal. -/
def unitIdx (n : ℕ) : ℕ :=
  if n < 1024 then 0
  else if n < 1024 ^ 2 then 1
  else if n < 1024 ^ 3 then 2
  else 3

/-- Did this operation raise? -/
def isErr {α : Type} : Except String α → Bool
  | Except.error _ => true
  | Except.ok _ => false

/-- A well-behaved file whose every read succeeds with the same bytes. -/
def mkFile (s : String) : PyFile :=
  { size := Except.ok (strBytes s).length
  , previewRead := Except.ok (strBytes s)
  , tier1Read := Except.ok (strBytes s)
  , tier2Read := Except.ok (strBytes s)
  , tier3Read := Except.ok (strBytes s) }

/-- A file whose tier-1 read raises while the later reads succeed, with
content `{"a" 1}`: balanced braces but invalid JSON. -/
def c2File : PyFile :=
  { size := Except.ok 8
  , previewRead := Except.ok (strBytes "\x7b\"a\" 1\x7d")
  , tier1Read := Except.error "simulated io error"
  , tier2Read := Except.ok (strBytes "\x7b\"a\" 1\x7d")
  , tier3Read := Except.ok (strBytes "\x7b\"a\" 1\x7d") }

/-- A nonexistent file: every operation raises. -/
def missingFile : PyFile :=
  { size := Except.error "No such file or directory"
  , previewRead := Except.error "No such file or directory"
  , tier1Read := Except.error "No such file or directory"
  , tier2Read := Except.error "No such file or directory"
  , tier3Read := Except.error "No such file or directory" }

/-- Like `missingFile` for the size and preview reads, but with tier reads
that would succeed — used to show the tier results cannot influence the
probe once the preview part has raised. -/
def missingFileTiersOk : PyFile :=
  { size := Except.error "No such file or directory"
  , previewRead := Except.error "No such file or directory"
  , tier1Read := Except.ok (strBytes "[1, 2]")
  , tier2Read := Except.ok (strBytes "[1, 2]")
  , tier3Read := Except.ok (strBytes "[1, 2]") }

/-- The file of claim C5: content `{"x": NaN, "y": 2}`. -/
def c5File : PyFile := mkFile "\x7b\"x\": NaN, \"y\": 2\x7d"

/-- The file of claim C10: content `{"NaNCount": 1}`. -/
def c10File : PyFile := mkFile "\x7b\"NaNCount\": 1\x7d"

/-- C1: for every file model and preview byte budget, the probe — the
`try` block of `preview_large_json` together with its internal call to
`analyze_json_structure` — ends in `Except.ok` with a `ProbeResult`:
every failure path is caught and converted into a result record, never
propagated to the caller. -/
theorem preview_large_json_never_raises (fm : PyFile) (max_bytes : Nat) :
    preview_large_json_exc fm max_bytes =
      Except.ok (preview_large_json fm max_bytes) := by
  unfold preview_large_json_exc preview_large_json
  cases preview_body fm max_bytes <;> rfl

/-- C2, counterexample: tier 1 raises, tier 2 reads `{"a" 1}` — the brace
scan finds a complete top-level object but `json.loads` fails on it — and
the analysis result is tier 3's byte-sniff description, not the
"details could not be parsed" string the claim requires. -/
theorem tier2_parse_failure_counterexample :
    analyze_json_structure c2File 5 = "JSON object (dictionary) with NaN values" ∧
    analyze_json_structure c2File 5 ≠
      "JSON structure detected, but details could not be parsed" ∧
    ((tier2CleanContent (strBytes "\x7b\"a\" 1\x7d")).dropWhile
      isPySpace).head? = some '{' ∧
    0 < bracketEnd (tier2CleanContent (strBytes "\x7b\"a\" 1\x7d")) ∧
    jsonLoads ((tier2CleanContent (strBytes "\x7b\"a\" 1\x7d")).take
      (bracketEnd (tier2CleanContent (strBytes "\x7b\"a\" 1\x7d")))) = none := by
  exact ⟨by decide, by decide, by decide, by decide, rfl⟩

/-- C2, amended: in the bracket-matching tier, when the cleaned text starts
with `{` and the brace scan marks a complete top-level object but parsing
that substring fails, the `JSONDecodeError` propagates out of tier 2 and
control passes to the byte-sniff tier 3 (whose outcome, or on its own
failure the embedded tier-1 message, becomes the result) — the
"details could not be parsed" description is not produced on this path. -/
theorem tier2_parse_failure_falls_to_tier3 (fm : PyFile) (e : String)
    (bytes2 : List Nat)
    (h1 : fm.tier1Read = Except.error e)
    (h2 : fm.tier2Read = Except.ok bytes2)
    (hbrace : ((tier2CleanContent bytes2).dropWhile isPySpace).head? = some '{')
    (hend : 0 < bracketEnd (tier2CleanContent bytes2))
    (hfail : jsonLoads ((tier2CleanContent bytes2).take
      (bracketEnd (tier2CleanContent bytes2))) = none) :
    analyze_json_structure fm 5 =
      (match tier3 fm with
       | Except.ok s => s
       | Except.error _ => "Could not analyze structure: " ++ e) := by
  have ht1 : tier1 fm 5 = Except.error e := by
    unfold tier1; rw [h1]; rfl
  have ht2 : tier2 fm 5 = Except.error "JSONDecodeError" := by
    unfold tier2; rw [h2]
    show (if ((tier2CleanContent bytes2).dropWhile isPySpace).head? = some '{'
      then _ else _ : Except String String) = _
    rw [if_pos hbrace, if_pos hend, hfail]
  unfold analyze_json_structure
  rw [ht1, ht2]

/-- C2, witness for the amended theorem at the concrete file `c2File`. -/
theorem tier2_parse_failure_falls_to_tier3_witness :
    analyze_json_structure c2File 5 =
      (match tier3 c2File with
       | Except.ok s => s
       | Except.error _ =>
         "Could not analyze structure: " ++ "simulated io error") :=
  tier2_parse_failure_falls_to_tier3 c2File "simulated io error"
    (strBytes "\x7b\"a\" 1\x7d") rfl rfl (by decide) (by decide) rfl

/-- C3, counterexample: the reads decode with `errors='ignore'`, which
silently drops undecodable bytes instead of substituting a replacement
character: reading the bytes `7B FF 7D` yields the two-character text
`{}` — no `U+FFFD` appears and the invalid byte is gone. -/
theorem ignore_decoding_counterexample :
    readText [0x7B, 0xFF, 0x7D] 1024 = ['{', '}'] ∧
    Char.ofNat 0xFFFD ∉ readText [0x7B, 0xFF, 0x7D] 1024 ∧
    (readText [0x7B, 0xFF, 0x7D] 1024).length < 3 := by
  decide

/-- C3, amended: the reading operations (the Preview Reader and the tier
reads all go through `readText`) tolerate an undecodable byte by silently
dropping it — decoding continues after it and no replacement character is
substituted — rather than failing: for any following bytes and any read
size, the invalid byte `0xFF` leaves the text read unchanged. -/
theorem ignore_decoding_drops_invalid (bs : List Nat) (n : Nat) :
    readText (0xFF :: bs) n = readText bs n := by
  have h : utf8Ignore (0xFF :: bs) = utf8Ignore bs := rfl
  simp [readText, h]

/-- The first-seen dedup loop only ever appends to its accumulator. -/
theorem firstSeenDedupAux_append (ks : List String) :
    ∀ acc : List String, ∃ ext, firstSeenDedupAux acc ks = acc ++ ext := by
  induction ks with
  | nil => exact fun acc => ⟨[], by simp [firstSeenDedupAux]⟩
  | cons k ks ih =>
    intro acc
    by_cases hk : k ∈ acc
    · obtain ⟨ext, hext⟩ := ih acc
      exact ⟨ext, by simp [firstSeenDedupAux, hk, hext]⟩
    · obtain ⟨ext, hext⟩ := ih (acc ++ [k])
      exact ⟨[k] ++ ext, by simp [firstSeenDedupAux, hk, hext]⟩

/-- The first-seen dedup loop preserves `Nodup` of the accumulator. -/
theorem firstSeenDedupAux_nodup (ks : List String) :
    ∀ acc : List String, acc.Nodup → (firstSeenDedupAux acc ks).Nodup := by
  induction ks with
  | nil => exact fun acc h => by simpa [firstSeenDedupAux] using h
  | cons k ks ih =>
    intro acc hacc
    by_cases hk : k ∈ acc
    · simpa [firstSeenDedupAux, hk] using ih acc hacc
    · have : (acc ++ [k]).Nodup := by
        rw [List.nodup_append]
        refine ⟨hacc, List.nodup_singleton k, ?_⟩
        intro a ha hak
        simp only [List.mem_singleton] at hak
        exact hk (hak ▸ ha)
      simpa [firstSeenDedupAux, hk] using ih (acc ++ [k]) this

/-- A full accumulator is never extended by the `unique_keys` loop. -/
theorem uniqueKeys_foldl_full (cap : Nat) (ks : List String) :
    ∀ acc : List String, acc.length = cap →
      List.foldl (uniqueKeysStep cap) acc ks = acc := by
  induction ks with
  | nil => intro acc _; rfl
  | cons k ks ih =>
    intro acc hacc
    have hstep : uniqueKeysStep cap acc k = acc := by
      unfold uniqueKeysStep
      rw [if_neg]
      intro ⟨_, hlt⟩
      omega
    simpa [List.foldl, hstep] using ih acc hacc

/-- The `unique_keys` loop computes the first-seen deduplication truncated
to the cap. -/
theorem uniqueKeys_foldl_eq (cap : Nat) (ks : List String) :
    ∀ acc : List String, acc.length ≤ cap →
      List.foldl (uniqueKeysStep cap) acc ks =
        (firstSeenDedupAux acc ks).take cap := by
  induction ks with
  | nil =>
    intro acc hacc
    simp [firstSeenDedupAux, List.take_of_length_le hacc]
  | cons k ks ih =>
    intro acc hacc
    by_cases hk : k ∈ acc
    · have hstep : uniqueKeysStep cap acc k = acc := by
        unfold uniqueKeysStep
        rw [if_neg]
        intro ⟨hmem, _⟩
        exact hmem hk
      simpa [List.foldl, hstep, firstSeenDedupAux, hk] using ih acc hacc
    · by_cases hl : acc.length < cap
      · have hstep : uniqueKeysStep cap acc k = acc ++ [k] := by
          unfold uniqueKeysStep
          rw [if_pos ⟨hk, hl⟩]
        have hlen : (acc ++ [k]).length ≤ cap := by
          simp only [List.length_append, List.length_singleton]
          omega
        simpa [List.foldl, hstep, firstSeenDedupAux, hk] using ih (acc ++ [k]) hlen
      · have hcap : acc.length = cap := by omega
        have hstep : uniqueKeysStep cap acc k = acc := by
          unfold uniqueKeysStep
          rw [if_neg]
          intro ⟨_, hlt⟩
          exact hl hlt
        obtain ⟨ext, hext⟩ := firstSeenDedupAux_append ks (acc ++ [k])
        have hrhs : (firstSeenDedupAux acc (k :: ks)).take cap = acc := by
          show (firstSeenDedupAux acc (k :: ks)).take cap = acc
          have : firstSeenDedupAux acc (k :: ks) = acc ++ ([k] ++ ext) := by
            simp [firstSeenDedupAux, hk, hext]
          rw [this, ← hcap]
          exact List.take_left acc ([k] ++ ext)
        rw [List.foldl, hstep, uniqueKeys_foldl_full cap ks acc hcap, hrhs]

/-- C4: every candidate key list the description can show obeys the
invariant.  The tier-1 list `unique_keys` (computed from the regex matches
over the first 1000 characters of any cleaned content) contains no
duplicates, never exceeds the cap of 5, and equals the first-seen-order
deduplication of the matches truncated to 5 — so with at least 5 distinct
matched keys its length is exactly 5, duplicate occurrences before the
cutoff notwithstanding.  The tier-2 list (dict keys truncated to 5)
likewise has no duplicates and at most 5 entries. -/
theorem candidate_keys_invariant (s : List Char) (kvs : List (String × JVal)) :
    (uniqueKeys (findKeys (s.take 1000)) 5).Nodup ∧
    (uniqueKeys (findKeys (s.take 1000)) 5).length ≤ 5 ∧
    uniqueKeys (findKeys (s.take 1000)) 5 =
      (firstSeenDedup (findKeys (s.take 1000))).take 5 ∧
    (5 ≤ (firstSeenDedup (findKeys (s.take 1000))).length →
      (uniqueKeys (findKeys (s.take 1000)) 5).length = 5) ∧
    ((dictKeys kvs).take 5).Nodup ∧
    ((dictKeys kvs).take 5).length ≤ 5 := by
  have heq : uniqueKeys (findKeys (s.take 1000)) 5 =
      (firstSeenDedup (findKeys (s.take 1000))).take 5 :=
    uniqueKeys_foldl_eq 5 (findKeys (s.take 1000)) [] (by simp)
  have hnodup : (firstSeenDedup (findKeys (s.take 1000))).Nodup :=
    firstSeenDedupAux_nodup (findKeys (s.take 1000)) [] List.nodup_nil
  refine ⟨?_, ?_, heq, ?_, ?_, ?_⟩
  · rw [heq]
    exact hnodup.sublist (List.take_sublist 5 _)
  · rw [heq, List.length_take]
    omega
  · intro h5
    rw [heq, List.length_take]
    omega
  · exact (firstSeenDedupAux_nodup _ [] List.nodup_nil).sublist
      (List.take_sublist 5 _)
  · rw [List.length_take]
    omega

/-- C4, witness: a file text with six distinct top-level keys, the first
of which repeats before the cutoff — the candidate list has length
exactly 5. -/
theorem candidate_keys_invariant_witness :
    (uniqueKeys (findKeys (("\x7b\"k1\": 1, \"k1\": 2, \"k2\": 3, \"k3\": 4, " ++
        "\"k4\": 5, \"k5\": 6, \"k6\": 7\x7d").data.take 1000)) 5).length = 5 :=
  (candidate_keys_invariant ("\x7b\"k1\": 1, \"k1\": 2, \"k2\": 3, \"k3\": 4, " ++
      "\"k4\": 5, \"k5\": 6, \"k6\": 7\x7d").data []).2.2.2.1 (by decide)

/-- C5: for the file whose content is `{"x": NaN, "y": 2}`, the fast-path
tier succeeds (the `NaN` token having been replaced by `null` before
inspection) and the description reports exactly the keys `x` and `y`, in
that order. -/
theorem tier1_nan_substitution_keys :
    tier1 c5File 5 = Except.ok "JSON object with keys including: x, y" ∧
    analyze_json_structure c5File 5 = "JSON object with keys including: x, y" := by
  exact ⟨rfl, by decide⟩

/-- C6: whenever obtaining the size or reading the preview raises (a
nonexistent path makes both raise), the probe returns — without raising —
a record with `file_size = 0` and a preview beginning with
`"Error reading file:"`. -/
theorem probe_read_failure_result (fm : PyFile) (n : Nat)
    (h : isErr fm.size = true ∨ isErr fm.previewRead = true) :
    (preview_large_json fm n).file_size = 0 ∧
    ∃ msg, (preview_large_json fm n).preview = "Error reading file: " ++ msg := by
  cases hs : fm.size with
  | error e =>
    have hb : preview_body fm n = Except.error e := by
      unfold preview_body; rw [hs]; rfl
    simp [preview_large_json, hb, errorProbe]
  | ok sz =>
    cases hp : fm.previewRead with
    | error e =>
      have hb : preview_body fm n = Except.error e := by
        unfold preview_body; rw [hs, hp]; rfl
      simp [preview_large_json, hb, errorProbe]
    | ok bs =>
      rw [hs, hp] at h
      simp [isErr] at h

/-- C6, witness: the probe of a nonexistent file. -/
theorem probe_read_failure_result_witness :
    (preview_large_json missingFile 10000).file_size = 0 ∧
    ∃ msg, (preview_large_json missingFile 10000).preview =
      "Error reading file: " ++ msg :=
  probe_read_failure_result missingFile 10000 (Or.inl (by decide))

/-- C7: when the decoded content of the file is at least as long as the
preview budget (length measured in characters under the tolerant decoding,
as the claim measures it), the preview text returned has length exactly
the budget, not the full content length. -/
theorem preview_length_is_budget (fm : PyFile) (n sz : Nat) (bs : List Nat)
    (hsz : fm.size = Except.ok sz) (hrd : fm.previewRead = Except.ok bs)
    (hbig : n ≤ (newlineTranslate (utf8Ignore bs)).length) :
    (preview_large_json fm n).preview.length = n := by
  have hb : preview_body fm n =
      Except.ok { preview := String.mk (readText bs n),
                  structure_info := analyze_json_structure fm 5,
                  file_size := sz } := by
    unfold preview_body; rw [hsz, hrd]; rfl
  simp [preview_large_json, hb, readText, String.length]
  omega

/-- C7, witness: a 12-character file read with a budget of 5. -/
theorem preview_length_is_budget_witness :
    (preview_large_json (mkFile "\x7b\"abc\": 17\x7d") 5).preview.length = 5 :=
  preview_length_is_budget (mkFile "\x7b\"abc\": 17\x7d") 5
    (strBytes "\x7b\"abc\": 17\x7d").length
    (strBytes "\x7b\"abc\": 17\x7d") rfl rfl (by decide)

/-- C9: if obtaining the size or opening the preview read raises, the
returned record's structure description is exactly `"Error"`, and the
result does not depend on the tier reads at all — the structure sniffer's
outcome is suppressed entirely (two file models agreeing on size and
preview read yield identical results). -/
theorem probe_failure_suppresses_sniffer (fm fm2 : PyFile) (n : Nat)
    (h : isErr fm.size = true ∨ isErr fm.previewRead = true)
    (hsz : fm2.size = fm.size) (hpr : fm2.previewRead = fm.previewRead) :
    (preview_large_json fm n).structure_info = "Error" ∧
    preview_large_json fm2 n = preview_large_json fm n := by
  cases hs : fm.size with
  | error e =>
    have hb : preview_body fm n = Except.error e := by
      unfold preview_body; rw [hs]; rfl
    have hb2 : preview_body fm2 n = Except.error e := by
      unfold preview_body; rw [hsz, hs]; rfl
    simp [preview_large_json, hb, hb2, errorProbe]
  | ok sz =>
    cases hp : fm.previewRead with
    | error e =>
      have hb : preview_body fm n = Except.error e := by
        unfold preview_body; rw [hs, hp]; rfl
      have hb2 : preview_body fm2 n = Except.error e := by
        unfold preview_body; rw [hsz, hs, hpr, hp]; rfl
      simp [preview_large_json, hb, hb2, errorProbe]
    | ok bs =>
      rw [hs, hp] at h
      simp [isErr] at h

/-- C9, witness: a missing file, against the same failures with enterable
tier reads. -/
theorem probe_failure_suppresses_sniffer_witness :
    (preview_large_json missingFile 10000).structure_info = "Error" ∧
    preview_large_json missingFileTiersOk 10000 =
      preview_large_json missingFile 10000 :=
  probe_failure_suppresses_sniffer missingFile missingFileTiersOk 10000
    (Or.inl (by decide)) (by rfl) (by rfl)

/-- C10: the `NaN` → `null` substitution is a plain substring replacement
applied to the raw text before key extraction — tier 1 always describes
the `pyReplace`d text — so the file `{"NaNCount": 1}` is reported with
the altered key name `nullCount` instead of the name present in the
file. -/
theorem nan_substitution_corrupts_keys :
    (∀ (fm : PyFile) (bytes : List Nat), fm.tier1Read = Except.ok bytes →
      tier1 fm 5 = Except.ok
        (tier1Describe (pyReplace (readText bytes 1024) nanChars nullChars) 5)) ∧
    analyze_json_structure c10File 5 =
      "JSON object with keys including: nullCount" ∧
    analyze_json_structure c10File 5 ≠
      "JSON object with keys including: NaNCount" := by
  refine ⟨fun fm bytes h => ?_, by decide, by decide⟩
  unfold tier1; rw [h]; rfl

/-- C10, witness for the quantified part at the concrete file. -/
theorem nan_substitution_corrupts_keys_witness :
    tier1 c10File 5 = Except.ok
      (tier1Describe (pyReplace (readText (strBytes "\x7b\"NaNCount\": 1\x7d") 1024)
        nanChars nullChars) 5) :=
  nan_substitution_corrupts_keys.1 c10File (strBytes "\x7b\"NaNCount\": 1\x7d") rfl

/-- Rounding a nonnegative value gives a nonnegative integer. -/
theorem roundHalfEven_nonneg {q : ℚ} (h : 0 ≤ q) : 0 ≤ roundHalfEven q := by
  unfold roundHalfEven
  have hf : (0 : ℤ) ≤ ⌊q⌋ := Int.floor_nonneg.2 h
  split_ifs <;> omega

/-- C8: for every byte count, `format_file_size` renders the byte count
divided by 1024 once per unit step, under the unit the specification
prescribes — the first of B, KB, MB, GB whose scaled value is below 1024,
with GB terminal even when the scaled value is 1024 or more — and the
number is printed with exactly two digits after the decimal point.
(The Python value is a float, but converting a size below `2 ^ 53` to
float is exact and dividing by 1024 only changes the exponent, so the
rational model is exact there.) -/
theorem format_file_size_spec (n : ℕ) :
    format_file_size (n : ℚ) =
      fmt2 ((n : ℚ) / 1024 ^ unitIdx n) ++ " " ++ sizeUnits.getD (unitIdx n) "" ∧
    ∃ m : ℕ, fmt2 ((n : ℚ) / 1024 ^ unitIdx n) =
      toString (m / 100) ++ "." ++ pad2 (m % 100) ∧ (pad2 (m % 100)).length = 2 := by
  constructor
  · by_cases h0 : n < 1024
    · have hq : (n : ℚ) < 1024 := by exact_mod_cast h0
      have hidx : unitIdx n = 0 := by simp [unitIdx, h0]
      rw [hidx]
      show _ = fmt2 ((n : ℚ) / 1024 ^ 0) ++ " " ++ "B"
      rw [pow_zero, div_one]
      unfold format_file_size
      rw [if_pos hq]
      exact (rfl : fmt2 (n : ℚ) ++ " B" = _).trans
        ((String.append_assoc (fmt2 (n : ℚ)) " " "B").symm ▸ rfl)
    · have hq : ¬((n : ℚ) < 1024) := by exact_mod_cast h0
      by_cases h1 : n < 1024 ^ 2
      · have hq1 : (n : ℚ) / 1024 < 1024 := by
          rw [div_lt_iff₀ (by norm_num : (0 : ℚ) < 1024)]
          calc (n : ℚ) < ((1024 ^ 2 : ℕ) : ℚ) := by exact_mod_cast h1
          _ = 1024 * 1024 := by norm_num
        have hidx : unitIdx n = 1 := by
          unfold unitIdx; split_ifs <;> omega
        rw [hidx]
        show _ = fmt2 ((n : ℚ) / 1024 ^ 1) ++ " " ++ "KB"
        rw [pow_one]
        unfold format_file_size
        rw [if_neg hq, if_pos hq1]
        exact (String.append_assoc (fmt2 ((n : ℚ) / 1024)) " " "KB").symm ▸ rfl
      · have hq1 : ¬((n : ℚ) / 1024 < 1024) := by
          rw [div_lt_iff₀ (by norm_num : (0 : ℚ) < 1024)]
          intro hc
          exact h1 (by exact_mod_cast hc.trans_eq (by norm_num :
            (1024 : ℚ) * 1024 = ((1024 ^ 2 : ℕ) : ℚ)))
        by_cases h2 : n < 1024 ^ 3
        · have hq2 : (n : ℚ) / 1024 / 1024 < 1024 := by
            rw [div_div, div_lt_iff₀ (by norm_num : (0 : ℚ) < 1024 * 1024)]
            calc (n : ℚ) < ((1024 ^ 3 : ℕ) : ℚ) := by exact_mod_cast h2
            _ = 1024 * (1024 * 1024) := by norm_num
          have hv : (n : ℚ) / 1024 / 1024 = (n : ℚ) / 1024 ^ 2 := by
            rw [div_div]; norm_num
          have h1n : ¬n < 1048576 := by intro hc; exact h1 (by norm_num; omega)
          have h2n : n < 1073741824 := by norm_num at h2; omega
          have hidx : unitIdx n = 2 := by
            unfold unitIdx; split_ifs <;> omega
          rw [hidx]
          show _ = fmt2 ((n : ℚ) / 1024 ^ 2) ++ " " ++ "MB"
          unfold format_file_size
          rw [if_neg hq, if_neg hq1, if_pos hq2, hv]
          exact (String.append_assoc (fmt2 ((n : ℚ) / 1024 ^ 2)) " " "MB").symm ▸ rfl
        · have hq2 : ¬((n : ℚ) / 1024 / 1024 < 1024) := by
            rw [div_div, div_lt_iff₀ (by norm_num : (0 : ℚ) < 1024 * 1024)]
            intro hc
            exact h2 (by exact_mod_cast hc.trans_eq (by norm_num :
              (1024 : ℚ) * (1024 * 1024) = ((1024 ^ 3 : ℕ) : ℚ)))
          have hv : (n : ℚ) / 1024 / 1024 / 1024 = (n : ℚ) / 1024 ^ 3 := by
            rw [div_div, div_div]; norm_num
          have h1n : ¬n < 1048576 := by intro hc; exact h1 (by norm_num; omega)
          have h2n : ¬n < 1073741824 := by intro hc; exact h2 (by norm_num; omega)
          have hidx : unitIdx n = 3 := by
            unfold unitIdx; split_ifs <;> omega
          rw [hidx]
          show _ = fmt2 ((n : ℚ) / 1024 ^ 3) ++ " " ++ "GB"
          unfold format_file_size
          rw [if_neg hq, if_neg hq1, if_neg hq2, hv]
          exact (String.append_assoc (fmt2 ((n : ℚ) / 1024 ^ 3)) " " "GB").symm ▸ rfl
  · have hpos : 0 ≤ (n : ℚ) / 1024 ^ unitIdx n := by positivity
    have hr : 0 ≤ roundHalfEven ((n : ℚ) / 1024 ^ unitIdx n * 100) :=
      roundHalfEven_nonneg (by positivity)
    refine ⟨(roundHalfEven ((n : ℚ) / 1024 ^ unitIdx n * 100)).toNat, ?_, ?_⟩
    · unfold fmt2
      rw [if_neg (by omega)]
    · simp [pad2]

end Fleetalytics
